import Mathlib

/-!
Verification of the Azure blob filesystem adapter
(src/azure_blob_filesystem.cpp) against its specification.

The development shallowly embeds the C++ source: machine integers of type
idx_t are modelled as Nat (the code under consideration only subtracts
quantities it has bounded, except where noted), the remote blob is a byte
function Nat → Nat together with the cached length, network fetches are
modelled by the pure function ReadRange returning the fetched bytes, and
exceptions are modelled with Except.
-/

namespace duckdb

/-- Error kinds raised by the filesystem: IOException (wrapping remote
storage errors or unknown failures), NotImplementedException and
InternalException, each carrying the message built by the C++ code. -/
inductive FsError where
  | ioErr (msg : String)
  | notImplemented (msg : String)
  | internalErr (msg : String)
deriving DecidableEq

/-- Flag bit FILE_FLAGS_READ of the host FileFlags bitmask. -/
def FILE_FLAGS_READ : Nat := 1

/-- Flag bit FILE_FLAGS_WRITE of the host FileFlags bitmask. -/
def FILE_FLAGS_WRITE : Nat := 2

/-- Flag bit modelling FILE_FLAGS_DIRECT_IO of the host FileFlags bitmask. -/
def FILE_FLAGS_DIRECT : Nat := 4

/-- Read-tuning options attached to a storage context and to every handle
(azure_read_transfer_concurrency, azure_read_transfer_chunk_size,
azure_read_buffer_size). Only buffer_size steers the buffered reader. -/
structure AzureReadOptions where
  transfer_concurrency : Int
  transfer_chunk_size : Int
  buffer_size : Nat
deriving DecidableEq

/-- The per-file handle state of AzureBlobStorageFileHandle: the flags it
was opened with, the cached blob size (length), the cached modification
time (last_modified), the read-ahead buffer bookkeeping
(buffer_available, buffer_idx, buffer_start, buffer_end), the logical
file_offset, the buffer contents (read_buffer, a byte array modelled as a
function) and the read options. The blob client is kept abstract; the blob
contents are passed to each operation as a function `file`. -/
structure AzureBlobStorageFileHandle where
  flags : Nat
  length : Nat
  last_modified : Int
  buffer_available : Nat
  buffer_idx : Nat
  file_offset : Nat
  buffer_start : Nat
  buffer_end : Nat
  read_buffer : Nat → Nat
  read_options : AzureReadOptions

/-- One network fetch performed during a read: `toCaller off len` is a
ranged download written directly into the caller's buffer, `toBuffer off
len` is a ranged download refilling the handle's internal read_buffer. -/
inductive Fetch where
  | toCaller (off len : Nat)
  | toBuffer (off len : Nat)
deriving DecidableEq

/-- AzureBlobStorageFileSystem::ReadRange: a single ranged download of
`buffer_out_len` bytes starting at `file_offset`, modelled as the list of
fetched bytes (the SDK call DownloadTo writes exactly this range). -/
def ReadRange (file : Nat → Nat) (file_offset : Nat) (buffer_out_len : Nat) : List Nat :=
  (List.range buffer_out_len).map (fun i => file (file_offset + i))

/-- The memcpy length of one pass of the Read loop:
buffer_read_len = MinValue(buffer_available, to_read). -/
def copyLen (h : AzureBlobStorageFileHandle) (to_read : Nat) : Nat :=
  min h.buffer_available to_read

/-- The bytes one pass of the Read loop copies out of the internal buffer:
read_buffer[buffer_idx .. buffer_idx + buffer_read_len). -/
def copiedBytes (h : AzureBlobStorageFileHandle) (to_read : Nat) : List Nat :=
  (List.range (copyLen h to_read)).map (fun i => h.read_buffer (h.buffer_idx + i))

/-- The handle bookkeeping after the memcpy of one pass of the Read loop:
buffer_idx, file_offset advance and buffer_available shrinks by
buffer_read_len. -/
def afterCopy (h : AzureBlobStorageFileHandle) (to_read : Nat) : AzureBlobStorageFileHandle :=
  { h with buffer_idx := h.buffer_idx + copyLen h to_read,
           buffer_available := h.buffer_available - copyLen h to_read,
           file_offset := h.file_offset + copyLen h to_read }

/-- new_buffer_available = MinValue(buffer_size, length - file_offset).
The idx_t subtraction length - file_offset is modelled as truncated Nat
subtraction; the two agree whenever file_offset ≤ length, which holds
throughout every in-bounds read (for an out-of-bounds request the C++
fetch throws on the invalid range before the difference matters). -/
def newBufAvail (h : AzureBlobStorageFileHandle) : Nat :=
  min h.read_options.buffer_size (h.length - h.file_offset)

/-- The refill step of the Read loop: ReadRange into the internal buffer
at the current file_offset and reset the window bookkeeping. -/
def refill (file : Nat → Nat) (h : AzureBlobStorageFileHandle) : AzureBlobStorageFileHandle :=
  { h with
    read_buffer := fun j => if j < newBufAvail h then file (h.file_offset + j) else h.read_buffer j,
    buffer_available := newBufAvail h, buffer_idx := 0, buffer_start := h.file_offset,
    buffer_end := h.file_offset + newBufAvail h }

/-- The bypass step of the Read loop (request larger than the refill):
ReadRange straight into the caller's buffer and leave the internal buffer
empty. -/
def bypass (h : AzureBlobStorageFileHandle) (rem : Nat) : AzureBlobStorageFileHandle :=
  { h with buffer_available := 0, buffer_idx := 0, file_offset := h.file_offset + rem }

/-- The while loop of AzureBlobStorageFileSystem::Read (positional): copies
from the internal buffer while bytes are available, and on exhaustion
either bypasses the buffer (remaining request larger than the refill) or
refills the read-ahead buffer and continues. Returns the final handle
state, the bytes written to the caller's buffer (accumulated in `out`) and
the trace of network fetches (accumulated in `evs`). -/
def readLoop (file : Nat → Nat) (location : Nat) (h : AzureBlobStorageFileHandle)
    (to_read buffer_offset : Nat) (out : List Nat) (evs : List Fetch) :
    AzureBlobStorageFileHandle × List Nat × List Fetch :=
  if htr : to_read = 0 then
    (h, out, evs)
  else
    if hrem : to_read - copyLen h to_read = 0 then
      (afterCopy h to_read, out ++ copiedBytes h to_read, evs)
    else if hav : (afterCopy h to_read).buffer_available = 0 then
      if hbig : to_read - copyLen h to_read > newBufAvail (afterCopy h to_read) then
        (bypass (afterCopy h to_read) (to_read - copyLen h to_read),
         (out ++ copiedBytes h to_read) ++
           ReadRange file (location + (buffer_offset + copyLen h to_read))
             (to_read - copyLen h to_read),
         evs ++ [Fetch.toCaller (location + (buffer_offset + copyLen h to_read))
           (to_read - copyLen h to_read)])
      else
        readLoop file location (refill file (afterCopy h to_read))
          (to_read - copyLen h to_read) (buffer_offset + copyLen h to_read)
          (out ++ copiedBytes h to_read)
          (evs ++ [Fetch.toBuffer (afterCopy h to_read).file_offset
            (newBufAvail (afterCopy h to_read))])
    else
      readLoop file location (afterCopy h to_read) (to_read - copyLen h to_read)
        (buffer_offset + copyLen h to_read) (out ++ copiedBytes h to_read) evs
termination_by 2 * to_read + (if h.buffer_available = 0 then 1 else 0)
decreasing_by
  · simp only [refill, afterCopy, newBufAvail, copyLen] at *
    split_ifs <;> omega
  · simp only [afterCopy, newBufAvail, copyLen] at *
    split_ifs <;> omega

/-- AzureBlobStorageFileSystem::Read (positional): in direct-I/O mode with
a nonempty request, one ranged fetch straight into the caller's buffer;
otherwise reposition the buffer window (hit keeps the window, miss resets
it) and run the copy/refill loop. -/
def Read (file : Nat → Nat) (h : AzureBlobStorageFileHandle) (location : Nat) (nr_bytes : Nat) :
    AzureBlobStorageFileHandle × List Nat × List Fetch :=
  if h.flags &&& FILE_FLAGS_DIRECT ≠ 0 ∧ nr_bytes > 0 then
    ({ h with buffer_available := 0, buffer_idx := 0, file_offset := location + nr_bytes },
     ReadRange file location nr_bytes,
     [Fetch.toCaller location nr_bytes])
  else if h.buffer_start ≤ location ∧ location < h.buffer_end then
    readLoop file location
      { h with file_offset := location, buffer_idx := location - h.buffer_start,
               buffer_available := (h.buffer_end - h.buffer_start) - (location - h.buffer_start) }
      nr_bytes 0 [] []
  else
    readLoop file location
      { h with buffer_available := 0, buffer_idx := 0, file_offset := location }
      nr_bytes 0 [] []

/-- AzureBlobStorageFileSystem::Seek: sets the logical file offset. -/
def Seek (h : AzureBlobStorageFileHandle) (location : Nat) : AzureBlobStorageFileHandle :=
  { h with file_offset := location }

/-- The AzureBlobStorageFileHandle constructor: `props` is the outcome of
blob_client.GetProperties() (the blob size, or the storage/unknown
exception already wrapped into the IOException the two catch blocks
build); on success the handle caches the size, leaves last_modified at
time_t() = 0 and allocates the (uninitialized) read buffer `init_buf`. -/
def mkHandle (flags : Nat) (props : Except FsError Nat) (init_buf : Nat → Nat)
    (read_options : AzureReadOptions) : Except FsError AzureBlobStorageFileHandle :=
  match props with
  | .error e => .error e
  | .ok size =>
    .ok { flags := flags, length := size, last_modified := 0, buffer_available := 0,
          buffer_idx := 0, file_offset := 0, buffer_start := 0, buffer_end := 0,
          read_buffer := init_buf, read_options := read_options }

/-- AzureBlobStorageFileSystem::CreateHandle: throws InternalException
when no FileOpener is given, otherwise builds the handle (`mk` stands for
the URL parsing, context lookup and handle construction outcome). -/
def CreateHandle (openerPresent : Bool) (mk : Except FsError AzureBlobStorageFileHandle) :
    Except FsError AzureBlobStorageFileHandle :=
  if openerPresent = false then
    .error (.internalErr "Cannot do Azure storage CreateHandle without FileOpener")
  else
    mk

/-- AzureBlobStorageFileSystem::OpenFile: rejects any write flag with a
NotImplementedException before creating a handle. -/
def OpenFile (flags : Nat) (openerPresent : Bool)
    (mk : Except FsError AzureBlobStorageFileHandle) :
    Except FsError AzureBlobStorageFileHandle :=
  if flags &&& FILE_FLAGS_WRITE ≠ 0 then
    .error (.notImplemented "Writing to Azure containers is currently not supported")
  else
    CreateHandle openerPresent mk

/-- AzureBlobStorageFileSystem::FileExists: opens the file read-only
(with the host's default arguments, whose FileOpener is the null pointer,
so openerPresent is false at the call site), reports false for a
zero-length blob and true otherwise; every exception escaping the open is
caught and turned into false. -/
def FileExists (openerPresent : Bool) (mk : Except FsError AzureBlobStorageFileHandle) : Bool :=
  match OpenFile FILE_FLAGS_READ openerPresent mk with
  | .error _ => false
  | .ok sfh => if sfh.length = 0 then false else true

/-- AzureBlobStorageFileSystem::GetFileSize: the cached blob size. -/
def GetFileSize (h : AzureBlobStorageFileHandle) : Nat :=
  h.length

/-- AzureBlobStorageFileSystem::GetLastModifiedTime: the cached
last_modified field. -/
def GetLastModifiedTime (h : AzureBlobStorageFileHandle) : Int :=
  h.last_modified

/-- The value std::string::npos as a 64-bit size_t. -/
def npos : Nat := 2 ^ 64 - 1

/-- std::string::rfind(pat, 0): the only candidate position is 0, so the
result is 0 when `pat` is a prefix of `s` and npos otherwise. -/
def rfindAtZero (s pat : String) : Nat :=
  if pat.isPrefixOf s then 0 else npos

/-- AzureBlobStorageFileSystem::CanHandleFile: the size_t product
rfind("azure://", 0) * rfind("az://", 0) computed modulo 2^64, compared
with 0. -/
def CanHandleFile (fpath : String) : Bool :=
  (rfindAtZero fpath "azure://" * rfindAtZero fpath "az://") % 2 ^ 64 == 0

/-- Modelled from the spec: LikeFun::Glob lives in the host DuckDB engine,
not in this repository; per the spec's glob language a single-segment glob
supports `*` (any run of characters), `?` (one character), character
classes `[...]` with `!` negation, and backslash escapes. This helper
recognizes a negated character class. -/
def classNeg (ps : List Char) : Bool :=
  ps.head? == some '!'

/-- The character-class body of a glob pattern after the optional '!'. -/
def classBody (ps : List Char) : List Char :=
  if classNeg ps then ps.tail else ps

/-- Index of the closing ']' in the class body (the body length if
there is none). -/
def classEndIdx (ps : List Char) : Nat :=
  (classBody ps).findIdx (fun x => x = ']')

/-- Modelled from the spec: character-by-character matcher over a segment
(continuation of segGlob). -/
def globChars : List Char → List Char → Bool
  | [], [] => true
  | [], '*' :: ps => globChars [] ps
  | [], _ :: _ => false
  | _ :: _, [] => false
  | c :: ss, '*' :: ps => globChars (c :: ss) ps || globChars ss ('*' :: ps)
  | _ :: ss, '?' :: ps => globChars ss ps
  | c :: ss, '[' :: ps =>
    if classEndIdx ps < (classBody ps).length then
      (((classBody ps).take (classEndIdx ps)).contains c != classNeg ps) &&
        globChars ss ((classBody ps).drop (classEndIdx ps + 1))
    else
      false
  | c :: ss, '\\' :: ps =>
    match ps with
    | [] => false
    | x :: ps2 => c = x && globChars ss ps2
  | c :: ss, q :: ps => c = q && globChars ss ps
termination_by s p => s.length + p.length
decreasing_by
  · simp only [List.length_cons, List.length_nil]; omega
  · simp only [List.length_cons]; omega
  · simp only [List.length_cons]; omega
  · simp only [List.length_cons]; omega
  · have hcb : (classBody ps).length ≤ ps.length := by
      simp only [classBody]
      split_ifs
      · simp only [List.length_tail]; omega
      · omega
    simp only [List.length_cons, List.length_drop]
    omega
  · simp only [List.length_cons]; omega
  · simp only [List.length_cons]; omega

/-- Modelled from the spec: the single-segment matcher LikeFun::Glob on
whole segment strings. -/
def segGlob (s p : String) : Bool :=
  globChars s.data p.data

/-- The Match function of azure_blob_filesystem.cpp over '/'-split key and
pattern segment lists, parameterized by the single-segment matcher `glob`
standing for LikeFun::Glob. A "**" pattern segment that is last accepts
immediately; a non-final "**" retries the tail pattern at every suffix of
the remaining key the C++ while loop visits (positions 0 up to the number
of remaining key segments minus one); any other pattern segment must
glob-match exactly one key segment. The loop ends when either iterator is
exhausted and accepts iff both are. -/
def Match (glob : String → String → Bool) : List String → List String → Bool
  | [], [] => true
  | [], _ :: _ => false
  | _ :: _, [] => false
  | k :: ks, p :: ps =>
    if p = "**" then
      if ps = [] then
        true
      else
        (List.range (ks.length + 1)).any (fun i => Match glob (List.drop i (k :: ks)) ps)
    else
      glob k p && Match glob ks ps
termination_by ks ps => ks.length + ps.length
decreasing_by
  all_goals simp only [List.length_cons, List.length_drop]
  all_goals omega

/-- The declarative reading of the segment matcher used to state the
amended claim C2: non-final "**" absorbs zero or more key segments, final
"**" absorbs the rest of the key provided at least one segment remains,
and every other pattern segment glob-matches exactly one key segment. -/
inductive MatchSpec (glob : String → String → Bool) : List String → List String → Prop
  | nil : MatchSpec glob [] []
  | seg {k p : String} {ks ps : List String} :
      p ≠ "**" → glob k p = true → MatchSpec glob ks ps → MatchSpec glob (k :: ks) (p :: ps)
  | starFinal {k : String} {ks : List String} : MatchSpec glob (k :: ks) ["**"]
  | starZero {ks ps : List String} :
      ps ≠ [] → MatchSpec glob ks ps → MatchSpec glob ks ("**" :: ps)
  | starCons {k : String} {ks ps : List String} :
      MatchSpec glob ks ("**" :: ps) → MatchSpec glob (k :: ks) ("**" :: ps)

/-- The set "*[\\" searched by Glob's find_first_of to locate the first
wildcard (note: '?' is not in the set). -/
def wildcardSet : List Char := ['*', '[', '\\']

/-- path.find_first_of("*[\\") as an optional index. -/
def firstWildcardPos (s : String) : Option Nat :=
  s.data.findIdx? (fun c => wildcardSet.contains c)

/-- StringUtil::Split(input, "/") of the host engine: the non-empty
substrings between '/' occurrences. -/
def splitSegs (s : String) : List String :=
  (s.splitOn "/").filter (fun x => x ≠ "")

/-- The AzureParsedUrl record produced by ParseUrl (ParseUrl itself lives
in another translation unit of the repository); `scheme` models the field
holding the matched scheme ("azure://" or "az://"). -/
structure AzureParsedUrl where
  scheme : String
  storage_account_name : String
  endpoint : String
  container : String
  path : String
  is_fully_qualified : Bool

/-- AzureBlobStorageFileSystem::Glob: when the object key has no character
of "*[\\" the literal input path is returned as a singleton; otherwise the
server listing (abstracted as `listing`: the blob names returned by
ListBlobs for the prefix up to the first wildcard, pagination followed to
exhaustion) is filtered through Match and each hit is re-prefixed with the
reconstructed URL base. -/
def Glob (url : AzureParsedUrl) (origPath : String) (listing : List String) : List String :=
  match firstWildcardPos url.path with
  | none => [origPath]
  | some _ =>
    let pattern_splits := splitSegs url.path
    let base :=
      if url.is_fully_qualified then
        url.scheme ++ url.storage_account_name ++ "." ++ url.endpoint ++ "/" ++ url.container
      else
        url.scheme ++ url.container
    (listing.filter (fun name => Match segGlob (splitSegs name) pattern_splits)).map
      (fun name => base ++ "/" ++ name)

/-- AzureBlobContextState: the per-account storage context. The shared_ptr
identity of the C++ object is modelled by the tag ctx_id (distinct tags =
distinct instances); is_valid is the validity flag. -/
structure AzureBlobContextState where
  ctx_id : Nat
  is_valid : Bool
deriving DecidableEq

/-- AzureBlobContextState::QueryEnd: invalidates the context. -/
def QueryEnd (c : AzureBlobContextState) : AzureBlobContextState :=
  { c with is_valid := false }

/-- The client context's registered_state map (account name to context)
together with a counter supplying fresh instance tags. -/
structure SessionState where
  registered_state : String → Option AzureBlobContextState
  next_id : Nat

/-- AzureBlobStorageFileSystem::CreateStorageContext: builds a brand-new
context (make_shared), modelled as taking the next fresh tag. -/
def CreateStorageContext (s : SessionState) : AzureBlobContextState × SessionState :=
  ({ ctx_id := s.next_id, is_valid := true }, { s with next_id := s.next_id + 1 })

/-- AzureBlobStorageFileSystem::GetOrCreateStorageContext: with caching
enabled, a missing registry entry is created and inserted; an invalid
entry is replaced by a freshly created context; a valid entry is returned
as-is. With caching disabled a fresh context is created each time. -/
def GetOrCreateStorageContext (azure_context_caching : Bool) (account : String)
    (s : SessionState) : AzureBlobContextState × SessionState :=
  if azure_context_caching then
    match s.registered_state account with
    | none =>
      let r := CreateStorageContext s
      (r.1, { registered_state := fun a => if a = account then some r.1 else s.registered_state a,
              next_id := r.2.next_id })
    | some c =>
      if c.is_valid = false then
        let r := CreateStorageContext s
        (r.1, { registered_state := fun a => if a = account then some r.1 else s.registered_state a,
                next_id := r.2.next_id })
      else
        (c, s)
  else
    let r := CreateStorageContext s
    (r.1, r.2)

/-- Invalidation of one account's cached context as performed at query
end: AzureBlobContextState::QueryEnd is called on the registered state. -/
def invalidateAccount (account : String) (s : SessionState) : SessionState :=
  { s with registered_state := fun a =>
      if a = account then (s.registered_state a).map QueryEnd else s.registered_state a }

/-- All instance tags in the registry are below the fresh counter. -/
def SessionWF (s : SessionState) : Prop :=
  ∀ a c, s.registered_state a = some c → c.ctx_id < s.next_id

/-- The read-ahead buffer window is faithful to the blob: every byte of
read_buffer inside [0, buffer_end - buffer_start) holds the blob byte at
buffer_start plus that index. Freshly opened handles satisfy it vacuously
and every Read and Seek preserves it. -/
def BufferConsistent (file : Nat → Nat) (h : AzureBlobStorageFileHandle) : Prop :=
  ∀ j, j < h.buffer_end - h.buffer_start → h.read_buffer j = file (h.buffer_start + j)

/-- Handle states reachable from h₀ through the operations the host may
interleave before a read: Seek to any location and (in-bounds) positional
Read requests. -/
inductive Reachable (file : Nat → Nat) (h₀ : AzureBlobStorageFileHandle) :
    AzureBlobStorageFileHandle → Prop
  | refl : Reachable file h₀ h₀
  | seek (h : AzureBlobStorageFileHandle) (location : Nat) :
      Reachable file h₀ h → Reachable file h₀ (Seek h location)
  | read (h : AzureBlobStorageFileHandle) (location nr_bytes : Nat) :
      Reachable file h₀ h → location + nr_bytes ≤ h.length →
      Reachable file h₀ (Read file h location nr_bytes).1

/-- The extent of the current buffer window usable at `location`: how many
buffered bytes a read starting there can consume before the first refill
or bypass decision. Zero when `location` misses the window. -/
def hitWindow (h : AzureBlobStorageFileHandle) (location : Nat) : Nat :=
  if h.buffer_start ≤ location ∧ location < h.buffer_end then h.buffer_end - location else 0

/-- Concrete read options used by the witness instances. -/
def optsW : AzureReadOptions :=
  { transfer_concurrency := 1, transfer_chunk_size := 1, buffer_size := 4 }

/-- A concrete blob: byte i is 100 + i. -/
def fileW : Nat → Nat := fun i => 100 + i

/-- The handle a successful open (flags 1, blob size 5, zeroed scratch
buffer, optsW) produces. -/
def handleW : AzureBlobStorageFileHandle :=
  { flags := 1, length := 5, last_modified := 0, buffer_available := 0, buffer_idx := 0,
    file_offset := 0, buffer_start := 0, buffer_end := 0, read_buffer := fun _ => 0,
    read_options := optsW }

/-- A handle whose buffer window covers bytes [10, 12) of the blob, used
by the bypass witness. -/
def handleW6 : AzureBlobStorageFileHandle :=
  { flags := 1, length := 100, last_modified := 0, buffer_available := 2, buffer_idx := 0,
    file_offset := 10, buffer_start := 10, buffer_end := 12, read_buffer := fun i => 100 + 10 + i,
    read_options := optsW }

/-- A session whose registry caches one valid context (tag 0) for account
"acct". -/
def sessionW : SessionState :=
  { registered_state := fun a => if a = "acct" then some { ctx_id := 0, is_valid := true } else none,
    next_id := 1 }

@[simp] theorem afterCopy_flags (h : AzureBlobStorageFileHandle) (t : Nat) :
    (afterCopy h t).flags = h.flags := rfl

@[simp] theorem afterCopy_length (h : AzureBlobStorageFileHandle) (t : Nat) :
    (afterCopy h t).length = h.length := rfl

@[simp] theorem afterCopy_last_modified (h : AzureBlobStorageFileHandle) (t : Nat) :
    (afterCopy h t).last_modified = h.last_modified := rfl

@[simp] theorem afterCopy_read_buffer (h : AzureBlobStorageFileHandle) (t : Nat) :
    (afterCopy h t).read_buffer = h.read_buffer := rfl

@[simp] theorem afterCopy_read_options (h : AzureBlobStorageFileHandle) (t : Nat) :
    (afterCopy h t).read_options = h.read_options := rfl

@[simp] theorem afterCopy_buffer_start (h : AzureBlobStorageFileHandle) (t : Nat) :
    (afterCopy h t).buffer_start = h.buffer_start := rfl

@[simp] theorem afterCopy_buffer_end (h : AzureBlobStorageFileHandle) (t : Nat) :
    (afterCopy h t).buffer_end = h.buffer_end := rfl

@[simp] theorem afterCopy_buffer_idx (h : AzureBlobStorageFileHandle) (t : Nat) :
    (afterCopy h t).buffer_idx = h.buffer_idx + copyLen h t := rfl

@[simp] theorem afterCopy_buffer_available (h : AzureBlobStorageFileHandle) (t : Nat) :
    (afterCopy h t).buffer_available = h.buffer_available - copyLen h t := rfl

@[simp] theorem afterCopy_file_offset (h : AzureBlobStorageFileHandle) (t : Nat) :
    (afterCopy h t).file_offset = h.file_offset + copyLen h t := rfl

@[simp] theorem refill_flags (file : Nat → Nat) (h : AzureBlobStorageFileHandle) :
    (refill file h).flags = h.flags := rfl

@[simp] theorem refill_length (file : Nat → Nat) (h : AzureBlobStorageFileHandle) :
    (refill file h).length = h.length := rfl

@[simp] theorem refill_last_modified (file : Nat → Nat) (h : AzureBlobStorageFileHandle) :
    (refill file h).last_modified = h.last_modified := rfl

@[simp] theorem refill_read_options (file : Nat → Nat) (h : AzureBlobStorageFileHandle) :
    (refill file h).read_options = h.read_options := rfl

@[simp] theorem refill_file_offset (file : Nat → Nat) (h : AzureBlobStorageFileHandle) :
    (refill file h).file_offset = h.file_offset := rfl

@[simp] theorem refill_buffer_start (file : Nat → Nat) (h : AzureBlobStorageFileHandle) :
    (refill file h).buffer_start = h.file_offset := rfl

@[simp] theorem refill_buffer_end (file : Nat → Nat) (h : AzureBlobStorageFileHandle) :
    (refill file h).buffer_end = h.file_offset + newBufAvail h := rfl

@[simp] theorem refill_buffer_idx (file : Nat → Nat) (h : AzureBlobStorageFileHandle) :
    (refill file h).buffer_idx = 0 := rfl

@[simp] theorem refill_buffer_available (file : Nat → Nat) (h : AzureBlobStorageFileHandle) :
    (refill file h).buffer_available = newBufAvail h := rfl

@[simp] theorem refill_read_buffer (file : Nat → Nat) (h : AzureBlobStorageFileHandle) :
    (refill file h).read_buffer =
      fun j => if j < newBufAvail h then file (h.file_offset + j) else h.read_buffer j := rfl

@[simp] theorem bypass_flags (h : AzureBlobStorageFileHandle) (rem : Nat) :
    (bypass h rem).flags = h.flags := rfl

@[simp] theorem bypass_length (h : AzureBlobStorageFileHandle) (rem : Nat) :
    (bypass h rem).length = h.length := rfl

@[simp] theorem bypass_last_modified (h : AzureBlobStorageFileHandle) (rem : Nat) :
    (bypass h rem).last_modified = h.last_modified := rfl

@[simp] theorem bypass_read_options (h : AzureBlobStorageFileHandle) (rem : Nat) :
    (bypass h rem).read_options = h.read_options := rfl

@[simp] theorem bypass_read_buffer (h : AzureBlobStorageFileHandle) (rem : Nat) :
    (bypass h rem).read_buffer = h.read_buffer := rfl

@[simp] theorem bypass_buffer_start (h : AzureBlobStorageFileHandle) (rem : Nat) :
    (bypass h rem).buffer_start = h.buffer_start := rfl

@[simp] theorem bypass_buffer_end (h : AzureBlobStorageFileHandle) (rem : Nat) :
    (bypass h rem).buffer_end = h.buffer_end := rfl

@[simp] theorem bypass_buffer_idx (h : AzureBlobStorageFileHandle) (rem : Nat) :
    (bypass h rem).buffer_idx = 0 := rfl

@[simp] theorem bypass_buffer_available (h : AzureBlobStorageFileHandle) (rem : Nat) :
    (bypass h rem).buffer_available = 0 := rfl

@[simp] theorem bypass_file_offset (h : AzureBlobStorageFileHandle) (rem : Nat) :
    (bypass h rem).file_offset = h.file_offset + rem := rfl

@[simp] theorem Seek_file_offset (h : AzureBlobStorageFileHandle) (location : Nat) :
    (Seek h location).file_offset = location := rfl

@[simp] theorem Seek_buffer_start (h : AzureBlobStorageFileHandle) (location : Nat) :
    (Seek h location).buffer_start = h.buffer_start := rfl

@[simp] theorem Seek_buffer_end (h : AzureBlobStorageFileHandle) (location : Nat) :
    (Seek h location).buffer_end = h.buffer_end := rfl

@[simp] theorem Seek_read_buffer (h : AzureBlobStorageFileHandle) (location : Nat) :
    (Seek h location).read_buffer = h.read_buffer := rfl

@[simp] theorem Seek_length (h : AzureBlobStorageFileHandle) (location : Nat) :
    (Seek h location).length = h.length := rfl

@[simp] theorem Seek_last_modified (h : AzureBlobStorageFileHandle) (location : Nat) :
    (Seek h location).last_modified = h.last_modified := rfl

/-- ReadRange of zero bytes fetches nothing. -/
theorem ReadRange_zero (file : Nat → Nat) (off : Nat) : ReadRange file off 0 = [] := rfl

/-- A ranged fetch splits at any midpoint. -/
theorem ReadRange_split (file : Nat → Nat) (off a b : Nat) :
    ReadRange file off (a + b) = ReadRange file off a ++ ReadRange file (off + a) b := by
  simp only [ReadRange, List.range_add, List.map_append, List.map_map]
  congr 1
  apply List.map_congr_left
  intro x _
  simp [Nat.add_assoc]

/-- When the next buffer_available bytes at buffer_idx mirror the blob at
file_offset, one copy pass returns exactly the blob bytes at file_offset. -/
theorem copiedBytes_eq (file : Nat → Nat) (h : AzureBlobStorageFileHandle) (t : Nat)
    (hbuf : ∀ j, j < h.buffer_available → h.read_buffer (h.buffer_idx + j) = file (h.file_offset + j)) :
    copiedBytes h t = ReadRange file h.file_offset (copyLen h t) := by
  simp only [copiedBytes, ReadRange]
  apply List.map_congr_left
  intro i hi
  rw [List.mem_range] at hi
  exact hbuf i (by simp only [copyLen] at hi; omega)

/-- Correctness of the Read while-loop: if the buffered bytes still to be
consumed mirror the blob at the current file_offset, the cursor sits at
location + buffer_offset, and the remaining request is in bounds, then the
loop appends to `out` exactly the blob bytes of the remaining range. -/
theorem readLoop_out (file : Nat → Nat) (location : Nat)
    (h : AzureBlobStorageFileHandle) (to_read buffer_offset : Nat)
    (out : List Nat) (evs : List Fetch)
    (hbuf : ∀ j, j < h.buffer_available →
      h.read_buffer (h.buffer_idx + j) = file (h.file_offset + j))
    (hfo : h.file_offset = location + buffer_offset)
    (hlen : location + buffer_offset + to_read ≤ h.length) :
    (readLoop file location h to_read buffer_offset out evs).2.1 =
      out ++ ReadRange file (location + buffer_offset) to_read := by
  induction h, to_read, buffer_offset, out, evs using readLoop.induct file location with
  | case1 h bo out evs =>
    rw [readLoop]
    simp [ReadRange]
  | case2 h t bo out evs htr hrem =>
    rw [readLoop]
    simp only [dif_neg htr, dif_pos hrem]
    have hcl : copyLen h t = t := by
      simp only [copyLen] at hrem ⊢
      omega
    rw [copiedBytes_eq file h t hbuf, hcl, hfo]
  | case3 h t bo out evs htr hrem hav hbig =>
    rw [readLoop]
    simp only [dif_neg htr, dif_neg hrem, dif_pos hav, dif_pos hbig]
    have hcl : copyLen h t ≤ t := Nat.min_le_right _ _
    rw [copiedBytes_eq file h t hbuf, hfo, List.append_assoc]
    congr 1
    have hsplit := ReadRange_split file (location + bo) (copyLen h t) (t - copyLen h t)
    rw [show copyLen h t + (t - copyLen h t) = t by omega] at hsplit
    rw [hsplit, Nat.add_assoc]
  | case4 h t bo out evs htr hrem hav hbig ih =>
    rw [readLoop]
    simp only [dif_neg htr, dif_neg hrem, dif_pos hav, dif_neg hbig]
    have hcl : copyLen h t ≤ t := Nat.min_le_right _ _
    rw [ih]
    · rw [copiedBytes_eq file h t hbuf, hfo, List.append_assoc]
      congr 1
      have hsplit := ReadRange_split file (location + bo) (copyLen h t) (t - copyLen h t)
      rw [show copyLen h t + (t - copyLen h t) = t by omega] at hsplit
      rw [hsplit, Nat.add_assoc]
    · intro j hj
      simp only [refill_read_buffer, refill_buffer_idx, refill_buffer_available,
        refill_file_offset, afterCopy_file_offset] at hj ⊢
      simp only [Nat.zero_add, if_pos hj]
    · simp only [refill_file_offset, afterCopy_file_offset, hfo]
      omega
    · simp only [refill_length, afterCopy_length]
      omega
  | case5 h t bo out evs htr hrem hav ih =>
    exfalso
    simp only [afterCopy_buffer_available, copyLen] at hav hrem
    omega

/-- The Read loop never changes the cached length, modification time,
options or flags of the handle. -/
theorem readLoop_preserves (file : Nat → Nat) (location : Nat)
    (h : AzureBlobStorageFileHandle) (to_read buffer_offset : Nat)
    (out : List Nat) (evs : List Fetch) :
    (readLoop file location h to_read buffer_offset out evs).1.length = h.length ∧
    (readLoop file location h to_read buffer_offset out evs).1.last_modified = h.last_modified ∧
    (readLoop file location h to_read buffer_offset out evs).1.read_options = h.read_options ∧
    (readLoop file location h to_read buffer_offset out evs).1.flags = h.flags := by
  induction h, to_read, buffer_offset, out, evs using readLoop.induct file location with
  | case1 h bo out evs =>
    rw [readLoop]
    simp
  | case2 h t bo out evs htr hrem =>
    rw [readLoop]
    simp [dif_neg htr, dif_pos hrem]
  | case3 h t bo out evs htr hrem hav hbig =>
    rw [readLoop]
    have hav' : h.buffer_available - copyLen h t = 0 := by simpa using hav
    simp [dif_neg htr, dif_neg hrem, hav', dif_pos hbig]
  | case4 h t bo out evs htr hrem hav hbig ih =>
    rw [readLoop]
    have hav' : h.buffer_available - copyLen h t = 0 := by simpa using hav
    simp only [dif_neg htr, dif_neg hrem, dif_pos hav, dif_neg hbig]
    simpa using ih
  | case5 h t bo out evs htr hrem hav ih =>
    exfalso
    simp only [afterCopy_buffer_available, copyLen] at hav hrem
    omega

/-- The Read loop keeps the buffer window faithful to the blob. -/
theorem readLoop_BC (file : Nat → Nat) (location : Nat)
    (h : AzureBlobStorageFileHandle) (to_read buffer_offset : Nat)
    (out : List Nat) (evs : List Fetch) (hBC : BufferConsistent file h) :
    BufferConsistent file (readLoop file location h to_read buffer_offset out evs).1 := by
  induction h, to_read, buffer_offset, out, evs using readLoop.induct file location with
  | case1 h bo out evs =>
    rw [readLoop]
    simpa using hBC
  | case2 h t bo out evs htr hrem =>
    rw [readLoop]
    simp only [dif_neg htr, dif_pos hrem]
    intro j hj
    simp only [afterCopy_read_buffer, afterCopy_buffer_start, afterCopy_buffer_end] at hj ⊢
    exact hBC j hj
  | case3 h t bo out evs htr hrem hav hbig =>
    rw [readLoop]
    simp only [dif_neg htr, dif_neg hrem, dif_pos hav, dif_pos hbig]
    intro j hj
    simp only [bypass_read_buffer, bypass_buffer_start, bypass_buffer_end,
      afterCopy_read_buffer, afterCopy_buffer_start, afterCopy_buffer_end] at hj ⊢
    exact hBC j hj
  | case4 h t bo out evs htr hrem hav hbig ih =>
    rw [readLoop]
    simp only [dif_neg htr, dif_neg hrem, dif_pos hav, dif_neg hbig]
    apply ih
    intro j hj
    simp only [refill_read_buffer, refill_buffer_start, refill_buffer_end,
      afterCopy_file_offset] at hj ⊢
    have hj' : j < newBufAvail (afterCopy h t) := by omega
    simp [hj']
  | case5 h t bo out evs htr hrem hav ih =>
    exfalso
    simp only [afterCopy_buffer_available, copyLen] at hav hrem
    omega

/-- Positional Read returns exactly the bytes an unbuffered ranged fetch
of the same offset and length returns, for any in-bounds request on a
consistent handle. -/
theorem Read_out (file : Nat → Nat) (h : AzureBlobStorageFileHandle) (location nr_bytes : Nat)
    (hBC : BufferConsistent file h) (hb : location + nr_bytes ≤ h.length) :
    (Read file h location nr_bytes).2.1 = ReadRange file location nr_bytes := by
  unfold Read
  split_ifs with hdio hhit
  · rfl
  · rw [readLoop_out]
    · simp
    · intro j hj
      simp only at hj ⊢
      have h1 : location - h.buffer_start + j < h.buffer_end - h.buffer_start := by omega
      have := hBC (location - h.buffer_start + j) h1
      rw [this]
      congr 1
      omega
    · simp
    · simpa using hb
  · rw [readLoop_out]
    · simp
    · intro j hj
      simp only at hj
      omega
    · simp
    · simpa using hb

/-- Positional Read preserves buffer-window consistency. -/
theorem Read_BC (file : Nat → Nat) (h : AzureBlobStorageFileHandle) (location nr_bytes : Nat)
    (hBC : BufferConsistent file h) :
    BufferConsistent file (Read file h location nr_bytes).1 := by
  unfold Read
  split_ifs with hdio hhit
  · intro j hj
    simp only at hj ⊢
    exact hBC j hj
  · apply readLoop_BC
    intro j hj
    simp only at hj ⊢
    exact hBC j hj
  · apply readLoop_BC
    intro j hj
    simp only at hj ⊢
    exact hBC j hj

/-- Positional Read never changes length, modification time, options or
flags. -/
theorem Read_preserves (file : Nat → Nat) (h : AzureBlobStorageFileHandle)
    (location nr_bytes : Nat) :
    (Read file h location nr_bytes).1.length = h.length ∧
    (Read file h location nr_bytes).1.last_modified = h.last_modified ∧
    (Read file h location nr_bytes).1.read_options = h.read_options ∧
    (Read file h location nr_bytes).1.flags = h.flags := by
  unfold Read
  split_ifs with hdio hhit
  · simp
  · have := readLoop_preserves file location
      { h with file_offset := location, buffer_idx := location - h.buffer_start,
               buffer_available := (h.buffer_end - h.buffer_start) - (location - h.buffer_start) }
      nr_bytes 0 [] []
    simpa using this
  · have := readLoop_preserves file location
      { h with buffer_available := 0, buffer_idx := 0, file_offset := location }
      nr_bytes 0 [] []
    simpa using this

/-- Seek preserves buffer-window consistency. -/
theorem Seek_BC (file : Nat → Nat) (h : AzureBlobStorageFileHandle) (location : Nat)
    (hBC : BufferConsistent file h) : BufferConsistent file (Seek h location) := by
  intro j hj
  simp only [Seek_read_buffer, Seek_buffer_start, Seek_buffer_end] at hj ⊢
  exact hBC j hj

/-- A successfully constructed handle starts with an empty (hence
consistent) buffer window and last_modified = 0, and caches the reported
blob size. -/
theorem mkHandle_ok (flags : Nat) (props : Except FsError Nat) (init_buf : Nat → Nat)
    (read_options : AzureReadOptions) (h : AzureBlobStorageFileHandle)
    (hok : mkHandle flags props init_buf read_options = .ok h) :
    h.last_modified = 0 ∧ h.buffer_start = 0 ∧ h.buffer_end = 0 ∧
    (∀ file : Nat → Nat, BufferConsistent file h) := by
  cases props with
  | error e => simp [mkHandle] at hok
  | ok size =>
    simp only [mkHandle, Except.ok.injEq] at hok
    subst hok
    refine ⟨rfl, rfl, rfl, ?_⟩
    intro file j hj
    simp at hj

/-- Every state reachable from a consistent handle is consistent. -/
theorem Reachable_BC (file : Nat → Nat) (h₀ h : AzureBlobStorageFileHandle)
    (hr : Reachable file h₀ h) (hBC : BufferConsistent file h₀) :
    BufferConsistent file h := by
  induction hr with
  | refl => exact hBC
  | seek h loc _ ih => exact Seek_BC file h loc ih
  | read h loc n _ _ ih => exact Read_BC file h loc n ih

/-- Every state reachable from a handle keeps its modification time. -/
theorem Reachable_last_modified (file : Nat → Nat) (h₀ h : AzureBlobStorageFileHandle)
    (hr : Reachable file h₀ h) : h.last_modified = h₀.last_modified := by
  induction hr with
  | refl => rfl
  | seek h loc _ ih => simpa using ih
  | read h loc n _ _ ih => rw [(Read_preserves file h loc n).2.1, ih]

/-- Unfolding of the Read loop when the pass after the buffer copy must
bypass: remaining bytes nonzero and larger than the refill amount. -/
theorem readLoop_first_bypass (file : Nat → Nat) (location : Nat)
    (h : AzureBlobStorageFileHandle) (n : Nat) (out : List Nat) (evs : List Fetch)
    (hne : n ≠ 0) (hrem : n - copyLen h n ≠ 0)
    (hbig : n - copyLen h n > newBufAvail (afterCopy h n)) :
    readLoop file location h n 0 out evs =
      (bypass (afterCopy h n) (n - copyLen h n),
       (out ++ copiedBytes h n) ++
         ReadRange file (location + (0 + copyLen h n)) (n - copyLen h n),
       evs ++ [Fetch.toCaller (location + (0 + copyLen h n)) (n - copyLen h n)]) := by
  have hav : (afterCopy h n).buffer_available = 0 := by
    simp only [afterCopy_buffer_available, copyLen] at *
    omega
  rw [readLoop]
  simp only [dif_neg hne, dif_neg hrem, dif_pos hav, dif_pos hbig]

/-- Claim C1: for every read request whose offset and length lie within
the file's bounds, the buffered Read writes into the caller's buffer
exactly the bytes a single unbuffered ReadRange of that offset/length
fetches, for every handle state arising from a successful open followed
by any sequence of in-bounds reads and seeks. -/
theorem c1_read_refines_ReadRange (flags : Nat) (props : Except FsError Nat)
    (init_buf : Nat → Nat) (opts : AzureReadOptions) (file : Nat → Nat)
    (h₀ h : AzureBlobStorageFileHandle) (location nr_bytes : Nat)
    (hopen : mkHandle flags props init_buf opts = .ok h₀)
    (hreach : Reachable file h₀ h)
    (hb : location + nr_bytes ≤ h.length) :
    (Read file h location nr_bytes).2.1 = ReadRange file location nr_bytes := by
  have hBC₀ := (mkHandle_ok flags props init_buf opts h₀ hopen).2.2.2 file
  exact Read_out file h location nr_bytes (Reachable_BC file h₀ h hreach hBC₀) hb

/-- Witness for C1: a fresh handle over the 5-byte blob fileW, read of
bytes [1, 4). -/
theorem c1_read_refines_ReadRange_witness :
    (Read fileW handleW 1 3).2.1 = ReadRange fileW 1 3 :=
  c1_read_refines_ReadRange 1 (.ok 5) (fun _ => 0) optsW fileW handleW handleW 1 3 rfl
    Reachable.refl (by decide)

/-- Claim C9: on every successfully opened handle, and after any sequence
of reads and seeks on it, GetLastModifiedTime returns 0 (the
default-constructed time_t the constructor never overwrites). -/
theorem c9_last_modified_zero (flags : Nat) (props : Except FsError Nat)
    (init_buf : Nat → Nat) (opts : AzureReadOptions) (file : Nat → Nat)
    (h₀ h : AzureBlobStorageFileHandle)
    (hopen : mkHandle flags props init_buf opts = .ok h₀)
    (hreach : Reachable file h₀ h) :
    GetLastModifiedTime h = 0 := by
  have h0 := (mkHandle_ok flags props init_buf opts h₀ hopen).1
  unfold GetLastModifiedTime
  rw [Reachable_last_modified file h₀ h hreach, h0]

/-- Witness for C9 at the fixture handle. -/
theorem c9_last_modified_zero_witness : GetLastModifiedTime handleW = 0 :=
  c9_last_modified_zero 1 (.ok 5) (fun _ => 0) optsW fileW handleW handleW rfl Reachable.refl

/-- Claim C4: whenever the write flag is set, OpenFile fails with the
NotImplementedException regardless of how handle creation would have gone:
no write ever reaches a handle. -/
theorem c4_write_not_implemented (flags : Nat) (openerPresent : Bool)
    (mk : Except FsError AzureBlobStorageFileHandle)
    (hw : flags &&& FILE_FLAGS_WRITE ≠ 0) :
    OpenFile flags openerPresent mk =
      .error (.notImplemented "Writing to Azure containers is currently not supported") := by
  unfold OpenFile
  simp [hw]

/-- Witness for C4: read+write flags, opener present, creation would
succeed. -/
theorem c4_write_not_implemented_witness :
    OpenFile 3 true (.ok handleW) =
      .error (.notImplemented "Writing to Azure containers is currently not supported") :=
  c4_write_not_implemented 3 true (.ok handleW) (by decide)

/-- Claim C5: whenever opening the file fails with any exception,
FileExists swallows it and returns false. -/
theorem c5_FileExists_false_on_failure (openerPresent : Bool)
    (mk : Except FsError AzureBlobStorageFileHandle) (e : FsError)
    (herr : OpenFile FILE_FLAGS_READ openerPresent mk = .error e) :
    FileExists openerPresent mk = false := by
  unfold FileExists
  rw [herr]

/-- Witness for C5: a missing FileOpener makes the open throw
InternalException; FileExists reports false. -/
theorem c5_FileExists_false_on_failure_witness : FileExists false (.ok handleW) = false :=
  c5_FileExists_false_on_failure false (.ok handleW)
    (.internalErr "Cannot do Azure storage CreateHandle without FileOpener") rfl

/-- Claim C8: CanHandleFile accepts exactly the paths beginning with
"azure://" or "az://"; with neither prefix both rfind results are npos and
npos * npos = 1 mod 2^64, so the product test rejects. -/
theorem c8_CanHandleFile_iff (fpath : String) :
    CanHandleFile fpath = true ↔
      ("azure://".isPrefixOf fpath = true ∨ "az://".isPrefixOf fpath = true) := by
  unfold CanHandleFile rfindAtZero
  split_ifs with h1 h2 h2
  · simp [h1]
  · simp [h1]
  · simp [h2]
  · simp only [h1, h2]
    norm_num
    decide

/-- Claim C6: in a buffered (non-direct-I/O) in-bounds read whose bytes
still to be read after consuming the buffer window exceed the configured
buffer size, Read performs exactly one ranged fetch, of exactly the
remaining range, directly into the caller's buffer — no refill of the
read-ahead buffer — and leaves buffer_available = 0. -/
theorem c6_large_read_bypasses (file : Nat → Nat) (h : AzureBlobStorageFileHandle)
    (location nr_bytes : Nat)
    (hdio : h.flags &&& FILE_FLAGS_DIRECT = 0)
    (hb : location + nr_bytes ≤ h.length)
    (hbig : h.read_options.buffer_size < nr_bytes - min (hitWindow h location) nr_bytes) :
    (Read file h location nr_bytes).2.2 =
      [Fetch.toCaller (location + min (hitWindow h location) nr_bytes)
        (nr_bytes - min (hitWindow h location) nr_bytes)] ∧
    (Read file h location nr_bytes).1.buffer_available = 0 ∧
    (Read file h location nr_bytes).1.read_buffer = h.read_buffer := by
  have hn : nr_bytes ≠ 0 := by omega
  unfold Read
  split_ifs with hdio' hhit
  · exact absurd hdio hdio'.1
  · have hw : hitWindow h location = h.buffer_end - location := by
      simp [hitWindow, hhit]
    rw [hw] at hbig ⊢
    have hcl : copyLen
        { h with file_offset := location, buffer_idx := location - h.buffer_start,
                 buffer_available := (h.buffer_end - h.buffer_start) - (location - h.buffer_start) }
        nr_bytes = min (h.buffer_end - location) nr_bytes := by
      simp only [copyLen]
      omega
    rw [readLoop_first_bypass file location _ nr_bytes [] [] hn]
    · refine ⟨?_, by simp, by simp⟩
      simp only [List.nil_append, hcl]
      rw [show location + (0 + min (h.buffer_end - location) nr_bytes) =
        location + min (h.buffer_end - location) nr_bytes by omega]
    · rw [hcl]
      omega
    · rw [hcl]
      have : newBufAvail (afterCopy
          { h with file_offset := location, buffer_idx := location - h.buffer_start,
                   buffer_available := (h.buffer_end - h.buffer_start) - (location - h.buffer_start) }
          nr_bytes) ≤ h.read_options.buffer_size := by
        simp only [newBufAvail, afterCopy_read_options]
        omega
      omega
  · have hw : hitWindow h location = 0 := by
      simp only [hitWindow, if_neg hhit]
    rw [hw] at hbig ⊢
    have hcl : copyLen
        { h with buffer_available := 0, buffer_idx := 0, file_offset := location }
        nr_bytes = 0 := by
      simp [copyLen]
    rw [readLoop_first_bypass file location _ nr_bytes [] [] hn]
    · refine ⟨?_, by simp, by simp⟩
      simp only [List.nil_append, hcl]
      rw [show location + (0 + 0) = location + min 0 nr_bytes by omega,
        show nr_bytes - 0 = nr_bytes - min 0 nr_bytes by omega]
    · rw [hcl]
      omega
    · rw [hcl]
      have : newBufAvail (afterCopy
          { h with buffer_available := 0, buffer_idx := 0, file_offset := location }
          nr_bytes) ≤ h.read_options.buffer_size := by
        simp only [newBufAvail, afterCopy_read_options]
        omega
      omega

/-- Witness for C6: the window covers [10, 12), the request is 10 bytes at
offset 10 against buffer_size 4, so 8 bytes remain and are fetched in one
caller-directed range. -/
theorem c6_large_read_bypasses_witness :
    (Read fileW handleW6 10 10).2.2 =
      [Fetch.toCaller (10 + min (hitWindow handleW6 10) 10) (10 - min (hitWindow handleW6 10) 10)] ∧
    (Read fileW handleW6 10 10).1.buffer_available = 0 ∧
    (Read fileW handleW6 10 10).1.read_buffer = handleW6.read_buffer :=
  c6_large_read_bypasses fileW handleW6 10 10 (by decide) (by decide) (by decide)

/-- Claim C3: a path whose object key contains no wildcard character at
all ('*', '?', '[' or '\\') makes Glob return exactly the literal input
path, independently of whatever a listing would produce. -/
theorem c3_glob_literal (url : AzureParsedUrl) (origPath : String) (listing : List String)
    (hw : ∀ c ∈ url.path.data, c ≠ '*' ∧ c ≠ '?' ∧ c ≠ '[' ∧ c ≠ '\\') :
    Glob url origPath listing = [origPath] := by
  have hnone : firstWildcardPos url.path = none := by
    rw [firstWildcardPos, List.findIdx?_eq_none_iff]
    intro x hx
    rcases hw x hx with ⟨h1, _, h3, h4⟩
    simp [wildcardSet, h1, h3, h4]
  unfold Glob
  rw [hnone]

/-- Witness for C3 on the wildcard-free key "dir/data.csv". -/
theorem c3_glob_literal_witness :
    Glob { scheme := "az://", storage_account_name := "a", endpoint := "e", container := "c",
           path := "dir/data.csv", is_fully_qualified := false }
      "az://c/dir/data.csv" ["dir/other.csv"] = ["az://c/dir/data.csv"] :=
  c3_glob_literal _ _ _ (by decide)

/-- Claim C10: a key containing '?' but none of '*', '[' and '\\' is
treated as wildcard-free (find_first_of searches only "*[\\"), so Glob
returns the literal path and consults no listing. -/
theorem c10_question_mark_literal (url : AzureParsedUrl) (origPath : String)
    (listing : List String)
    (hq : '?' ∈ url.path.data)
    (hw : ∀ c ∈ url.path.data, c ≠ '*' ∧ c ≠ '[' ∧ c ≠ '\\') :
    Glob url origPath listing = [origPath] := by
  have hnone : firstWildcardPos url.path = none := by
    rw [firstWildcardPos, List.findIdx?_eq_none_iff]
    intro x hx
    rcases hw x hx with ⟨h1, h3, h4⟩
    simp [wildcardSet, h1, h3, h4]
  unfold Glob
  rw [hnone]

/-- Witness for C10 on the key "a?b", which contains '?' and would match
several blobs had the matcher been consulted. -/
theorem c10_question_mark_literal_witness :
    Glob { scheme := "az://", storage_account_name := "a", endpoint := "e", container := "c",
           path := "a?b", is_fully_qualified := false }
      "az://c/a?b" ["axb", "ayb"] = ["az://c/a?b"] :=
  c10_question_mark_literal _ _ _ (by decide) (by decide)

/-- Claim C7: with context caching enabled, every repeat access to an
account whose cached context is valid returns that very context (and
leaves the registry untouched, so all later repeats return it too), while
the first access after the context was invalidated at query end returns a
freshly created instance, distinct from every context previously in the
registry. -/
theorem c7_context_cache (s : SessionState) (account : String) (c : AzureBlobContextState)
    (hwf : SessionWF s) (hc : s.registered_state account = some c) :
    (c.is_valid = true → GetOrCreateStorageContext true account s = (c, s)) ∧
    ((GetOrCreateStorageContext true account (invalidateAccount account s)).1.is_valid = true ∧
     ∀ a c', s.registered_state a = some c' →
       (GetOrCreateStorageContext true account (invalidateAccount account s)).1.ctx_id ≠
         c'.ctx_id) := by
  constructor
  · intro hv
    simp [GetOrCreateStorageContext, hc, hv]
  · have hinv : (invalidateAccount account s).registered_state account = some (QueryEnd c) := by
      simp [invalidateAccount, hc]
    refine ⟨?_, ?_⟩
    · simp [GetOrCreateStorageContext, hinv, QueryEnd, CreateStorageContext]
    · intro a c' hac'
      have hlt := hwf a c' hac'
      unfold GetOrCreateStorageContext
      rw [hinv]
      simp [QueryEnd, CreateStorageContext, invalidateAccount]
      omega

/-- Witness for C7: repeat access to the valid cached context of "acct"
returns that instance and leaves the session unchanged. -/
theorem c7_context_cache_witness :
    GetOrCreateStorageContext true "acct" sessionW =
      ({ ctx_id := 0, is_valid := true }, sessionW) :=
  (c7_context_cache sessionW "acct" { ctx_id := 0, is_valid := true }
    (by
      intro a c hac
      simp only [sessionW] at hac ⊢
      split at hac
      · cases hac
        decide
      · simp at hac)
    rfl).1 rfl

/-- Match on two empty iterators accepts. -/
theorem Match_nil_nil (glob : String → String → Bool) : Match glob [] [] = true := by
  simp [Match]

/-- Match with an exhausted key but remaining pattern rejects — even when
the remaining pattern is a lone "**". -/
theorem Match_nil_cons (glob : String → String → Bool) (p : String) (ps : List String) :
    Match glob [] (p :: ps) = false := by
  simp [Match]

/-- Match with an exhausted pattern but remaining key rejects. -/
theorem Match_cons_nil (glob : String → String → Bool) (k : String) (ks : List String) :
    Match glob (k :: ks) [] = false := by
  simp [Match]

/-- A final "**" reached with at least one key segment left accepts. -/
theorem Match_star_last (glob : String → String → Bool) (k : String) (ks : List String) :
    Match glob (k :: ks) ["**"] = true := by
  simp [Match]

/-- A non-"**" pattern segment glob-matches exactly one key segment. -/
theorem Match_seg (glob : String → String → Bool) (k p : String) (ks ps : List String)
    (hp : p ≠ "**") :
    Match glob (k :: ks) (p :: ps) = (glob k p && Match glob ks ps) := by
  simp [Match, hp]

/-- A non-final "**" retries the tail pattern at each suffix of the
remaining (nonempty) key that still has at least one segment. -/
theorem Match_star (glob : String → String → Bool) (k : String) (ks ps : List String)
    (hne : ps ≠ []) :
    Match glob (k :: ks) ("**" :: ps) =
      (List.range (ks.length + 1)).any (fun i => Match glob (List.drop i (k :: ks)) ps) := by
  simp [Match, hne]

/-- A MatchSpec derivation with an empty key forces an empty pattern: in
particular no pattern ending in "**" matches an exhausted key. -/
theorem MatchSpec_empty_key (glob : String → String → Bool) :
    ∀ ks ps, MatchSpec glob ks ps → ks = [] → ps = [] := by
  intro ks ps h
  induction h with
  | nil => intro _; rfl
  | seg hp hg hm ih => intro hks; simp at hks
  | starFinal => intro hks; simp at hks
  | starZero hne hm ih => intro hks; exact absurd (ih hks) hne
  | starCons hm ih => intro hks; simp at hks

/-- Segments skipped in front of a "**" pattern can be re-absorbed by that
"**". -/
theorem MatchSpec_drop_star (glob : String → String → Bool) (ps : List String) :
    ∀ i l, MatchSpec glob (List.drop i l) ("**" :: ps) → MatchSpec glob l ("**" :: ps) := by
  intro i
  induction i with
  | zero => intro l h; simpa using h
  | succ n ih =>
    intro l h
    cases l with
    | nil => simpa using h
    | cons x xs => exact MatchSpec.starCons (ih xs (by simpa using h))

/-- Soundness half of the characterization: an accepted pair admits a
MatchSpec decomposition. -/
theorem MatchSpec_of_Match (glob : String → String → Bool) :
    ∀ key pattern, Match glob key pattern = true → MatchSpec glob key pattern := by
  intro key pattern
  induction key, pattern using Match.induct glob with
  | case1 => intro _; exact MatchSpec.nil
  | case2 p ps => intro h; rw [Match_nil_cons] at h; exact absurd h (by simp)
  | case3 k ks => intro h; rw [Match_cons_nil] at h; exact absurd h (by simp)
  | case4 k ks => intro _; exact MatchSpec.starFinal
  | case5 k ks ps hne ih =>
    intro h
    rw [Match_star glob k ks ps hne, List.any_eq_true] at h
    obtain ⟨i, hi, hmi⟩ := h
    exact MatchSpec_drop_star glob ps i (k :: ks) (MatchSpec.starZero hne (ih i hmi))
  | case6 k ks p ps hp ih =>
    intro h
    rw [Match_seg glob k p ks ps hp, Bool.and_eq_true] at h
    exact MatchSpec.seg hp h.1 (ih h.2)

/-- Completeness half of the characterization: every MatchSpec
decomposition is accepted by Match. -/
theorem Match_of_MatchSpec (glob : String → String → Bool) (key pattern : List String)
    (h : MatchSpec glob key pattern) : Match glob key pattern = true := by
  induction h with
  | nil => exact Match_nil_nil glob
  | seg hp hg hm ih =>
    rw [Match_seg _ _ _ _ _ hp, Bool.and_eq_true]
    exact ⟨hg, ih⟩
  | starFinal => exact Match_star_last glob _ _
  | @starZero ks ps hne hm ih =>
    cases ks with
    | nil => exact absurd (MatchSpec_empty_key glob [] ps hm rfl) hne
    | cons k' ks' =>
      rw [Match_star glob k' ks' ps hne, List.any_eq_true]
      exact ⟨0, by simp, by simpa using ih⟩
  | @starCons k ks ps hm ih =>
    cases ps with
    | nil => exact Match_star_last glob _ _
    | cons p' ps' =>
      have hne : (p' :: ps') ≠ [] := by simp
      cases ks with
      | nil => rw [Match_nil_cons] at ih; exact absurd ih (by simp)
      | cons k2 ks2 =>
        rw [Match_star glob k2 ks2 (p' :: ps') hne, List.any_eq_true] at ih
        obtain ⟨i, hi, hmi⟩ := ih
        rw [List.mem_range] at hi
        rw [Match_star glob k (k2 :: ks2) (p' :: ps') hne, List.any_eq_true]
        refine ⟨i + 1, ?_, ?_⟩
        · rw [List.mem_range]
          simp only [List.length_cons]
          omega
        · simpa using hmi

/-- Claim C2 (amended): the segment matcher accepts exactly the pairs in
which every non-final "**" pattern segment corresponds to zero or more key
segments, a final "**" corresponds to one or more key segments (zero
remaining key segments are rejected), and every other pattern segment
('*', '?', character classes, literals) glob-matches exactly one key
segment. -/
theorem c2_match_characterization (glob : String → String → Bool) (key pattern : List String) :
    Match glob key pattern = true ↔ MatchSpec glob key pattern :=
  ⟨MatchSpec_of_Match glob key pattern, Match_of_MatchSpec glob key pattern⟩

/-- Counterexample to C2 as stated: for key "a" and pattern "a/**" the
final "**" corresponds to zero key segments, so the claim demands
acceptance, but the matcher rejects (the loop exits once the key iterator
is exhausted and then requires the pattern iterator to be exhausted too). -/
theorem c2_counterexample : Match segGlob ["a"] ["a", "**"] = false := by
  simp [Match]

end duckdb
